import Mathlib

/-
  Verification of the heidi EMR locate-and-extract pipeline.

  Shallow embedding of the core components of the repository:
  the coarse-to-fine screen locator and pixel-scale arithmetic
  (core/ai_locator.py), the tolerant JSON extractor for vision-model
  output (core/ai_locator.py), the OCR field extraction and
  normalization engine (core/ocr_parser.py), the EMR-dialect detector
  (core/smart_capture.py), the pipeline completeness check
  (integrations/standalone/pipeline.py), and the destination-API
  client's authentication fallback (core/heidi_client.py).

  Python machine behaviour is modelled as follows: floats on the
  localization path are modelled as exact rationals, int() as
  truncation toward zero, fallible calls as Option/Except values, and
  the unreliable vision service as explicit response parameters.
-/

namespace Heidi

/-! ## Python primitives -/

/-- Python int() applied to a rational: truncation toward zero.
    (Int.div is T-division; the denominator of a Rat is positive.) -/
def pyInt (q : ℚ) : ℤ := Int.tdiv q.num q.den

/-- ASCII whitespace recognized by Python str.strip / str.split / re \s
    (the inputs in this development contain no non-ASCII whitespace). -/
def pyWsChar (c : Char) : Bool :=
  c = ' ' || c = '\t' || c = '\n' || c = '\r' || c = '\x0b' || c = '\x0c'

/-- Python str.strip(): remove leading and trailing whitespace. -/
def pyStrip (cs : List Char) : List Char :=
  (((cs.dropWhile pyWsChar).reverse).dropWhile pyWsChar).reverse

/-- Python str.lower() restricted to ASCII letters (CJK unaffected). -/
def pyLower (c : Char) : Char :=
  if 'A' ≤ c ∧ c ≤ 'Z' then Char.ofNat (c.toNat + 32) else c

/-- Python str.upper() restricted to ASCII letters (CJK unaffected). -/
def pyUpper (c : Char) : Char :=
  if 'a' ≤ c ∧ c ≤ 'z' then Char.ofNat (c.toNat - 32) else c

/-! ## PixelScaleResolver: AINavigator._get_pixel_scale (core/ai_locator.py)

    Python source:
      img_w, _ = image.size
      scale = img_w / self.screen_w
      return scale

    There is no input validation anywhere in the function (and no
    InvalidScaleInput error type exists in the repository).  Division by
    zero raises ZeroDivisionError, modelled as none; every other input,
    negative screen widths included, silently produces a value. -/

def get_pixel_scale (imgW screenW : ℤ) : Option ℚ :=
  if screenW = 0 then none else some ((imgW : ℚ) / (screenW : ℚ))

/-! ## CoarseFineLocator: AINavigator.locate_patient_precise (core/ai_locator.py)

    The vision service is an unreliable boundary; its two responses are
    passed in as data.  The coarse response is either absent (call
    failed, or the returned dict has no "bbox" key) or a fractional
    bounding box [ymin, xmin, ymax, xmax]; the fine response is either
    absent or a record with a found flag and crop-relative fractions.

    The code performs no validation of the box: it converts the
    fractions to physical pixels with int() and crops immediately. -/

structure Bbox where
  ymin : ℚ
  xmin : ℚ
  ymax : ℚ
  xmax : ℚ

structure FineResp where
  found : Bool
  x : ℚ
  y : ℚ

/-- AINavigator.locate_patient_precise, with the two vision responses
    as parameters.  W, H are the screenshot's physical pixel size and
    screenW the logical screen width (pyautogui.size()). -/
def locate_patient_precise (W H screenW : ℕ) (coarse : Option Bbox)
    (fine : Option FineResp) : Option (ℤ × ℤ) :=
  let scale : ℚ := (W : ℚ) / (screenW : ℚ)
  match coarse with
  | none => none
  | some b =>
    let c0 : ℤ := pyInt (b.xmin * (W : ℚ))
    let c1 : ℤ := pyInt (b.ymin * (H : ℚ))
    let c2 : ℤ := pyInt (b.xmax * (W : ℚ))
    let c3 : ℤ := pyInt (b.ymax * (H : ℚ))
    match fine with
    | none => none
    | some f =>
      if f.found then
        let localX : ℚ := f.x * ((c2 : ℚ) - (c0 : ℚ))
        let localY : ℚ := f.y * ((c3 : ℚ) - (c1 : ℚ))
        some (pyInt (((c0 : ℚ) + localX) / scale), pyInt (((c1 : ℚ) + localY) / scale))
      else none

/-- The composed transform in the words of the spec: crop-relative
    fraction times crop pixel size, plus the crop top-left physical
    pixel offset, giving an absolute physical pixel coordinate, divided
    by the pixel scale (image pixel width / logical screen width). -/
def composedTransform (W H screenW : ℕ) (b : Bbox) (f : FineResp) : ℤ × ℤ :=
  let resolve : ℚ := (W : ℚ) / (screenW : ℚ)
  let cropLeft : ℤ := pyInt (b.xmin * (W : ℚ))
  let cropTop : ℤ := pyInt (b.ymin * (H : ℚ))
  let cropRight : ℤ := pyInt (b.xmax * (W : ℚ))
  let cropBottom : ℤ := pyInt (b.ymax * (H : ℚ))
  (pyInt ((f.x * ((cropRight - cropLeft : ℤ) : ℚ) + (cropLeft : ℚ)) / resolve),
   pyInt ((f.y * ((cropBottom - cropTop : ℤ) : ℚ) + (cropTop : ℚ)) / resolve))

/-- The analytically true logical target point of a synthetic input:
    the point at crop fraction (fx, fy) inside the fractional box,
    converted to physical pixels at full precision and divided by the
    pixel scale. -/
def trueLogicalX (W screenW : ℕ) (b : Bbox) (f : FineResp) : ℚ :=
  ((b.xmin + f.x * (b.xmax - b.xmin)) * (W : ℚ)) / ((W : ℚ) / (screenW : ℚ))

def trueLogicalY (W H screenW : ℕ) (b : Bbox) (f : FineResp) : ℚ :=
  ((b.ymin + f.y * (b.ymax - b.ymin)) * (H : ℚ)) / ((W : ℚ) / (screenW : ℚ))

/-- The RegionOfInterest invariant as stated by the spec:
    top < bottom, left < right, all four fractions in range. -/
def bboxValid (b : Bbox) : Prop :=
  b.ymin < b.ymax ∧ b.xmin < b.xmax ∧
  0 ≤ b.ymin ∧ b.ymax ≤ 1 ∧ 0 ≤ b.xmin ∧ b.xmax ≤ 1

/-- Synthetic instance: a 2000x1000 screenshot of a 1000-wide logical
    screen (scale 2), box the centred half of the image, target the
    centre of the crop.  The true target is exactly (500, 250). -/
def synthBox : Bbox := { ymin := 1/4, xmin := 1/4, ymax := 3/4, xmax := 3/4 }

def synthFine : FineResp := { found := true, x := 1/2, y := 1/2 }

/-- A coarse box violating the RegionOfInterest invariant: ymax and
    xmax are 3/2, far outside [0, 1].  PIL crop pads beyond the image
    edge without complaint, so the code proceeds. -/
def badBox : Bbox := { ymin := 0, xmin := 0, ymax := 3/2, xmax := 3/2 }

def badFine : FineResp := { found := true, x := 3/4, y := 3/4 }

/-! ## Claims C1, C2, C3 -/

/-- C1: for every coarse bounding box and crop-relative fractional
    point, locate_patient_precise composes the two transforms exactly
    as the spec describes (crop fraction times crop pixel size, plus
    the crop top-left physical offset, divided by the pixel scale
    W / screenW); and on a synthetic input whose true target point is
    known analytically (the centre of a centred half-size box on a
    2000x1000 capture of a 1000-wide logical screen), the returned
    point (500, 250) reproduces the true point within one pixel. -/
theorem C1_coarse_fine_compose :
    (∀ (W H screenW : ℕ) (b : Bbox) (f : FineResp), f.found = true →
      locate_patient_precise W H screenW (some b) (some f) =
        some (composedTransform W H screenW b f)) ∧
    locate_patient_precise 2000 1000 1000 (some synthBox) (some synthFine) =
      some (500, 250) ∧
    |(500 : ℚ) - trueLogicalX 2000 1000 synthBox synthFine| ≤ 1 ∧
    |(250 : ℚ) - trueLogicalY 2000 1000 1000 synthBox synthFine| ≤ 1 := by
  refine ⟨?_,
    by norm_num [locate_patient_precise, synthBox, synthFine, pyInt], ?_, ?_⟩
  · intro W H screenW b f hf
    simp only [locate_patient_precise, composedTransform, hf, if_true]
    push_cast
    ring_nf
  · have hx : trueLogicalX 2000 1000 synthBox synthFine = 500 := by
      norm_num [trueLogicalX, synthBox, synthFine]
    rw [hx]; norm_num
  · have hy : trueLogicalY 2000 1000 1000 synthBox synthFine = 250 := by
      norm_num [trueLogicalY, synthBox, synthFine]
    rw [hy]; norm_num

/-- C1 witness: the composition theorem applied at the synthetic input. -/
theorem C1_coarse_fine_compose_w :
    synthFine.found = true ∧
    locate_patient_precise 2000 1000 1000 (some synthBox) (some synthFine) =
      some (composedTransform 2000 1000 1000 synthBox synthFine) :=
  ⟨rfl, C1_coarse_fine_compose.1 2000 1000 1000 synthBox synthFine rfl⟩

/-- C2 (amended): a missing coarse response (no box returned or no bbox
    key) yields no coordinate, and a missing or not-found fine response
    yields no coordinate; but the RegionOfInterest invariant is never
    checked by the code (see C2_counterexample). -/
theorem C2_failure_amended :
    (∀ (W H screenW : ℕ) (fine : Option FineResp),
      locate_patient_precise W H screenW none fine = none) ∧
    (∀ (W H screenW : ℕ) (b : Bbox),
      locate_patient_precise W H screenW (some b) none = none) ∧
    (∀ (W H screenW : ℕ) (b : Bbox) (f : FineResp), f.found = false →
      locate_patient_precise W H screenW (some b) (some f) = none) := by
  refine ⟨fun _ _ _ _ => rfl, fun _ _ _ _ => rfl, ?_⟩
  intro W H screenW b f hf
  simp [locate_patient_precise, hf]

/-- C2 witness: a found=false fine response at concrete inputs. -/
theorem C2_failure_amended_w :
    (FineResp.mk false 0 0).found = false ∧
    locate_patient_precise 2000 1000 1000 (some synthBox)
      (some (FineResp.mk false 0 0)) = none :=
  ⟨rfl, C2_failure_amended.2.2 2000 1000 1000 synthBox (FineResp.mk false 0 0) rfl⟩

/-- C2 counterexample: a coarse box that violates the RegionOfInterest
    invariant (fractions 3/2 are out of range) is not rejected: the
    locator happily returns a coordinate (1125, 562) - which is even
    outside the 1000-wide logical screen - instead of terminating with
    found=false as the claim states. -/
theorem C2_counterexample :
    ¬ bboxValid badBox ∧
    locate_patient_precise 2000 1000 1000 (some badBox) (some badFine) =
      some (1125, 562) := by
  constructor
  · norm_num [bboxValid, badBox]
  · norm_num [locate_patient_precise, badBox, badFine, pyInt]
    decide

/-- C3 (amended): the resolver returns image width / screen width for
    every nonzero screen width - including negative ones, where it
    silently returns a degenerate negative scale - and raises only at
    screen width zero (a ZeroDivisionError; no InvalidScaleInput error
    type exists in the repository). -/
theorem C3_scale_amended :
    (∀ w s : ℤ, s ≠ 0 → get_pixel_scale w s = some ((w : ℚ) / (s : ℚ))) ∧
    (∀ w : ℤ, get_pixel_scale w 0 = none) ∧
    (∀ w s : ℤ, s < 0 → get_pixel_scale w s = some ((w : ℚ) / (s : ℚ))) := by
  refine ⟨?_, fun w => rfl, ?_⟩
  · intro w s hs; simp [get_pixel_scale, hs]
  · intro w s hs; simp [get_pixel_scale, hs.ne]

/-- C3 witness: the Retina case from the code comment, 3024 / 1512 = 2. -/
theorem C3_scale_amended_w :
    (1512 : ℤ) ≠ 0 ∧ get_pixel_scale 3024 1512 = some ((3024 : ℚ) / (1512 : ℚ)) :=
  ⟨by decide, C3_scale_amended.1 3024 1512 (by decide)⟩

/-- C3 counterexample: at logical screen width -50 the code silently
    returns the degenerate scale -2 instead of failing with an
    InvalidScaleInput error as the claim states. -/
theorem C3_counterexample : get_pixel_scale 100 (-50) = some (-2) := by
  norm_num [get_pixel_scale]

/-! ## ResponseDecoder: AINavigator._extract_json_from_text (core/ai_locator.py)

    Python source (abridged):
      text = text.strip()
      try:
          return json.loads(text)                                # strategy 1
      except json.JSONDecodeError:
          pass
      try:
          match = re.search(r'(\x7b.*?\x7d)', text, re.DOTALL)   # strategy 2
          if match:
              return json.loads(match.group(1))
          match = re.search(r'```json(.*?)```', text, re.DOTALL) # strategy 3
          if match:
              return json.loads(match.group(1).strip())
      except Exception:
          ... log text[:100] ...
      return None

    json.loads is modelled on the JSON fragment the vision prompts use:
    null, true, false, integers (no leading zeros, optional minus),
    strings with the single-character escapes, and objects; floats,
    arrays and unicode escapes are outside the modelled fragment (the
    model parser rejects them).  Whole-input consumption is required,
    as json.loads raises "Extra data" otherwise. -/

inductive Jval where
  | jnull : Jval
  | jbool : Bool → Jval
  | jnum : Int → Jval
  | jstr : List Char → Jval
  | jobj : List (List Char × Jval) → Jval

/-- JSON whitespace accepted by the json module scanner. -/
def jsonWsChar (c : Char) : Bool :=
  c = ' ' || c = '\t' || c = '\n' || c = '\r'

def skipWs (cs : List Char) : List Char := cs.dropWhile jsonWsChar

/-- One-character JSON string escapes. -/
def escChar (c : Char) : Option Char :=
  if c = '\x22' then some '\x22'
  else if c = '\\' then some '\\'
  else if c = '/' then some '/'
  else if c = 'n' then some '\n'
  else if c = 't' then some '\t'
  else if c = 'r' then some '\r'
  else if c = 'b' then some '\x08'
  else if c = 'f' then some '\x0c'
  else none

/-- Body of a JSON string after the opening quote; control characters
    are rejected as in the strict json scanner. -/
def parseStrBody : List Char → Option (List Char × List Char)
  | [] => none
  | '\x22' :: rest => some ([], rest)
  | '\\' :: e :: rest =>
    match escChar e with
    | some c => (parseStrBody rest).map (fun p => (c :: p.1, p.2))
    | none => none
  | c :: rest =>
    if c.toNat < 32 then none
    else (parseStrBody rest).map (fun p => (c :: p.1, p.2))

def digitVal (c : Char) : Nat := c.toNat - 48

def digitsToNat (ds : List Char) : Nat :=
  ds.foldl (fun a c => a * 10 + digitVal c) 0

/-- JSON unsigned integer: 0 or a nonzero digit followed by digits
    (leading zeros are invalid JSON). -/
def parseUInt : List Char → Option (Nat × List Char)
  | '0' :: rest => some (0, rest)
  | c :: rest =>
    if c.isDigit then
      some (digitsToNat (c :: rest.takeWhile Char.isDigit),
            rest.dropWhile Char.isDigit)
    else none
  | [] => none

def parseIntTok : List Char → Option (Int × List Char)
  | '-' :: rest => (parseUInt rest).map (fun p => (-(p.1 : Int), p.2))
  | cs => (parseUInt cs).map (fun p => ((p.1 : Int), p.2))

mutual

/-- JSON value (fuelled recursive-descent over the modelled fragment). -/
def parseVal (fuel : Nat) (cs : List Char) : Option (Jval × List Char) :=
  match fuel with
  | 0 => none
  | fuel + 1 =>
    match skipWs cs with
    | 'n' :: 'u' :: 'l' :: 'l' :: rest => some (.jnull, rest)
    | 't' :: 'r' :: 'u' :: 'e' :: rest => some (.jbool true, rest)
    | 'f' :: 'a' :: 'l' :: 's' :: 'e' :: rest => some (.jbool false, rest)
    | '\x22' :: rest => (parseStrBody rest).map (fun p => (.jstr p.1, p.2))
    | '\x7b' :: rest => parseObjRest fuel (skipWs rest)
    | other => (parseIntTok other).map (fun p => (.jnum p.1, p.2))

/-- Object continuation after the opening brace and whitespace. -/
def parseObjRest (fuel : Nat) (cs : List Char) : Option (Jval × List Char) :=
  match fuel with
  | 0 => none
  | fuel + 1 =>
    match cs with
    | '\x7d' :: rest => some (.jobj [], rest)
    | _ => (parseMembers fuel cs).map (fun p => (.jobj p.1, p.2))

/-- One or more key:value members followed by the closing brace. -/
def parseMembers (fuel : Nat) (cs : List Char) :
    Option (List (List Char × Jval) × List Char) :=
  match fuel with
  | 0 => none
  | fuel + 1 =>
    match cs with
    | '\x22' :: rest =>
      match parseStrBody rest with
      | none => none
      | some (key, r1) =>
        match skipWs r1 with
        | ':' :: r2 =>
          match parseVal fuel r2 with
          | none => none
          | some (v, r3) =>
            match skipWs r3 with
            | ',' :: r4 =>
              (parseMembers fuel (skipWs r4)).map
                (fun p => ((key, v) :: p.1, p.2))
            | '\x7d' :: r4 => some ([(key, v)], r4)
            | _ => none
        | _ => none
    | _ => none

end

/-- json.loads on the modelled fragment: one value, then only
    whitespace may remain ("Extra data" otherwise). -/
def json_loads (cs : List Char) : Option Jval :=
  match parseVal (cs.length + 1) cs with
  | some (v, rest) => if (skipWs rest).isEmpty then some v else none
  | none => none

/-- Occurrence split at the first occurrence of a character:
    some (before, after) with the character itself dropped. -/
def splitFirst (ch : Char) : List Char → Option (List Char × List Char)
  | [] => none
  | c :: cs =>
    if c = ch then some ([], cs)
    else (splitFirst ch cs).map (fun p => (c :: p.1, p.2))

/-- Occurrence split at the first occurrence of a literal substring. -/
def splitSub (pat : List Char) : List Char → Option (List Char × List Char)
  | [] => if pat.isEmpty then some ([], []) else none
  | c :: cs =>
    if pat.isPrefixOf (c :: cs) then some ([], (c :: cs).drop pat.length)
    else (splitSub pat cs).map (fun p => (c :: p.1, p.2))

/-- Strategy 2: re.search r'(\x7b.*?\x7d)' with DOTALL - the leftmost
    match runs from the first opening brace to the first closing brace
    after it (lazy quantifier), both included. -/
def strat2 (cs : List Char) : Option (List Char) :=
  match splitFirst '\x7b' cs with
  | none => none
  | some (_, b) =>
    match splitFirst '\x7d' b with
    | none => none
    | some (c, _) => some ('\x7b' :: (c ++ ['\x7d']))

/-- Strategy 3: re.search r'```json(.*?)```' with DOTALL - interior
    between the first "```json" and the first "```" after it. -/
def strat3 (cs : List Char) : Option (List Char) :=
  match splitSub ("```json".toList) cs with
  | none => none
  | some (_, rest) =>
    match splitSub ("```".toList) rest with
    | none => none
    | some (inner, _) => some inner

/-- AINavigator._extract_json_from_text.  Note the control flow of the
    source: strategies 2 and 3 share one try/except, so a strategy-2
    regex match whose json.loads raises aborts the whole function
    (returning None) without strategy 3 ever being attempted. -/
def extract_json (text : List Char) : Option Jval :=
  match json_loads (pyStrip text) with
  | some v => some v
  | none =>
    match strat2 (pyStrip text) with
    | some seg => json_loads seg
    | none =>
      match strat3 (pyStrip text) with
      | some inner => json_loads (pyStrip inner)
      | none => none

/-- The decoder in the words of the spec: the three strategies in
    strict priority order, first success wins (strategy 3 is still
    attempted when strategy 2 extracted a substring that fails to
    parse).  Used to exhibit where the code deviates. -/
def decode_spec_order (text : List Char) : Option Jval :=
  match json_loads (pyStrip text) with
  | some v => some v
  | none =>
    match (strat2 (pyStrip text)).bind json_loads with
    | some v => some v
    | none =>
      match strat3 (pyStrip text) with
      | some inner => json_loads (pyStrip inner)
      | none => none

/-! ### Support lemmas for the decoder claims -/

lemma dropWhile_append_cons (p : List Char) (c : Char) (x : List Char)
    (hc : pyWsChar c = false) :
    (p ++ c :: x).dropWhile pyWsChar = p.dropWhile pyWsChar ++ c :: x := by
  induction p with
  | nil => simp [List.dropWhile_cons, hc]
  | cons a as ih =>
    by_cases ha : pyWsChar a
    · simpa [List.dropWhile_cons, ha] using ih
    · simp [List.dropWhile_cons, ha]

lemma pyStrip_decomp (p body s : List Char) :
    pyStrip (p ++ '\x7b' :: (body ++ '\x7d' :: s)) =
      p.dropWhile pyWsChar ++
        '\x7b' :: (body ++ '\x7d' :: (s.reverse.dropWhile pyWsChar).reverse) := by
  unfold pyStrip
  rw [dropWhile_append_cons p '\x7b' (body ++ '\x7d' :: s) (by decide)]
  have h2 : (List.dropWhile pyWsChar p ++ '\x7b' :: (body ++ '\x7d' :: s)).reverse
      = s.reverse ++
          '\x7d' :: (body.reverse ++ '\x7b' :: (List.dropWhile pyWsChar p).reverse) := by
    simp
  rw [h2,
    dropWhile_append_cons s.reverse '\x7d'
      (body.reverse ++ '\x7b' :: (List.dropWhile pyWsChar p).reverse) (by decide)]
  simp

lemma splitFirst_append (ch : Char) (b : List Char) :
    ∀ a : List Char, ch ∉ a → splitFirst ch (a ++ ch :: b) = some (a, b) := by
  intro a
  induction a with
  | nil => intro _; simp [splitFirst]
  | cons x xs ih =>
    intro ha
    have hx : ¬ x = ch := fun h => ha (by simp [h])
    have ha2 : ch ∉ xs := fun h => ha (List.mem_cons_of_mem _ h)
    simp [splitFirst, hx, ih ha2]

lemma mem_of_mem_dropWhile {q : Char → Bool} {x : Char} :
    ∀ {l : List Char}, x ∈ l.dropWhile q → x ∈ l := by
  intro l
  induction l with
  | nil => intro h; simp at h
  | cons a as ih =>
    intro h
    rw [List.dropWhile_cons] at h
    by_cases hq : q a
    · simp only [hq, if_true] at h
      exact List.mem_cons_of_mem _ (ih h)
    · simpa [hq] using h

lemma strat2_decomp (p2 body s2 : List Char) (hp : '\x7b' ∉ p2)
    (hb : '\x7d' ∉ body) :
    strat2 (p2 ++ '\x7b' :: (body ++ '\x7d' :: s2)) =
      some ('\x7b' :: (body ++ ['\x7d'])) := by
  simp only [strat2, splitFirst_append '\x7b' (body ++ '\x7d' :: s2) p2 hp,
    splitFirst_append '\x7d' s2 body hb]

/-! ### Claims C4 and C5 -/

/-- C4 (amended): for every raw text formed as prose prefix ++ a JSON
    object ++ prose suffix, where the prefix contains no opening brace,
    the object body contains no closing brace (a flat object), the
    object parses, and the whole stripped text does not itself parse as
    JSON, the decoder recovers exactly the object's parse.  The second
    strategy takes the substring from the first opening brace to the
    FIRST closing brace after it (lazy match), not to the last one as
    the claim states - see C4_counterexample for a nested object. -/
theorem C4_decoder_recovers (p body s : List Char) (v : Jval)
    (hp : '\x7b' ∉ p) (hb : '\x7d' ∉ body)
    (hobj : json_loads ('\x7b' :: (body ++ ['\x7d'])) = some v)
    (hwhole : json_loads (pyStrip (p ++ '\x7b' :: (body ++ '\x7d' :: s))) = none) :
    extract_json (p ++ '\x7b' :: (body ++ '\x7d' :: s)) = some v := by
  have hp2 : '\x7b' ∉ p.dropWhile pyWsChar := fun h => hp (mem_of_mem_dropWhile h)
  unfold extract_json
  rw [hwhole, pyStrip_decomp,
    strat2_decomp (p.dropWhile pyWsChar) body
      ((s.reverse.dropWhile pyWsChar).reverse) hp2 hb]
  simpa using hobj

/-- C4 witness: a flat object wrapped in prose is recovered. -/
theorem C4_decoder_recovers_w :
    '\x7b' ∉ "Result: ".toList ∧ '\x7d' ∉ "\x22found\x22: true".toList ∧
    json_loads ('\x7b' :: ("\x22found\x22: true".toList ++ ['\x7d'])) =
      some (.jobj [("found".toList, .jbool true)]) ∧
    extract_json ("Result: ".toList ++
        '\x7b' :: ("\x22found\x22: true".toList ++ '\x7d' :: " ok".toList)) =
      some (.jobj [("found".toList, .jbool true)]) :=
  ⟨by decide, by decide, rfl,
    C4_decoder_recovers "Result: ".toList "\x22found\x22: true".toList " ok".toList
      (.jobj [("found".toList, .jbool true)]) (by decide) (by decide) rfl rfl⟩

/-- C4 counterexample: a nested object wrapped in prose.  Parsing the
    object directly succeeds, but the decoder returns nothing, because
    its second strategy lazily stops at the first closing brace (and
    its parse failure aborts the function).  This falsifies both the
    "recovers the same object for every balanced JSON object" claim and
    the "first brace to last brace" description of strategy 2. -/
theorem C4_counterexample :
    json_loads "\x7b\x22a\x22: \x7b\x22b\x22: 1\x7d\x7d".toList =
      some (.jobj [("a".toList, .jobj [("b".toList, .jnum 1)])]) ∧
    extract_json "hi \x7b\x22a\x22: \x7b\x22b\x22: 1\x7d\x7d bye".toList = none :=
  ⟨rfl, rfl⟩

/-- C5 (amended): the fenced-block scenario decodes to the expected
    object (via strategy 2, whose brace match already succeeds on it);
    but the strategies are not tried in "first success wins" order:
    when strategy 2 finds a brace-delimited substring that fails to
    parse, the decoder returns no data without attempting strategy 3,
    because both share one try/except.  On total failure the code
    returns None (logging the first 100 characters); it raises no
    exception (the embedding is a total function). -/
theorem C5_strategy_amended :
    extract_json "Sure! ```json\n\x7b\x22found\x22: true\x7d\n```".toList =
      some (.jobj [("found".toList, .jbool true)]) ∧
    (∀ t seg : List Char, json_loads (pyStrip t) = none →
      strat2 (pyStrip t) = some seg → json_loads seg = none →
      extract_json t = none) := by
  refine ⟨rfl, ?_⟩
  intro t seg h1 h2 h3
  unfold extract_json
  rw [h1, h2]
  simpa using h3

/-- C5 witness: the short-circuit clause applied to a concrete text on
    which strategy 2 matches a non-parsing substring. -/
theorem C5_strategy_amended_w :
    json_loads (pyStrip
      "pre \x7b\x22a\x22: \x7b\x22b\x22: 1\x7d\x7d ```json \x7b\x22c\x22: 3\x7d ```".toList) = none ∧
    strat2 (pyStrip
      "pre \x7b\x22a\x22: \x7b\x22b\x22: 1\x7d\x7d ```json \x7b\x22c\x22: 3\x7d ```".toList) =
      some "\x7b\x22a\x22: \x7b\x22b\x22: 1\x7d".toList ∧
    extract_json
      "pre \x7b\x22a\x22: \x7b\x22b\x22: 1\x7d\x7d ```json \x7b\x22c\x22: 3\x7d ```".toList = none :=
  ⟨rfl, rfl,
    C5_strategy_amended.2
      "pre \x7b\x22a\x22: \x7b\x22b\x22: 1\x7d\x7d ```json \x7b\x22c\x22: 3\x7d ```".toList
      "\x7b\x22a\x22: \x7b\x22b\x22: 1\x7d".toList rfl rfl rfl⟩

/-- C5 counterexample: on a text where strategy 2 matches but its
    substring fails to parse while strategy 3 would succeed, the
    decoder returns no data, whereas the spec's strict first-success
    priority order would return the fenced object - so the three
    strategies are not applied with "first success wins". -/
theorem C5_counterexample :
    extract_json
      "pre \x7b\x22a\x22: \x7b\x22b\x22: 1\x7d\x7d ```json \x7b\x22c\x22: 3\x7d ```".toList = none ∧
    decode_spec_order
      "pre \x7b\x22a\x22: \x7b\x22b\x22: 1\x7d\x7d ```json \x7b\x22c\x22: 3\x7d ```".toList =
      some (.jobj [("c".toList, .jnum 3)]) :=
  ⟨rfl, rfl⟩

/-! ## Normalizers: _normalize_gender and _normalize_date (core/ocr_parser.py)

    _normalize_gender: dictionary lookup on the lowercased raw value
    over the fixed synonym table, defaulting to OTHER.

    _normalize_date: replace the CJK year/month markers by '-' and
    delete the day marker, then try datetime.strptime with the template
    list [%Y-%m-%d, %Y/%m/%d, %m/%d/%Y, %d/%m/%Y, %Y%m%d] in order;
    the first template that parses wins and is re-serialized as
    YYYY-MM-DD; if none parses, the raw input is returned unchanged.

    strptime is embedded per CPython's _strptime regexes:
    %Y is exactly four digits; %m matches 1[0-2]|0[1-9]|[1-9] and
    %d matches 3[01]|[12]\d|0[1-9]|[1-9] (alternatives tried in order,
    with backtracking against the rest of the format); the whole string
    must be consumed; the datetime constructor then validates the
    calendar day (leap years included) and rejects year 0. -/

def normalize_gender (g : List Char) : List Char :=
  let lg := g.map pyLower
  if lg = "男".toList then "MALE".toList
  else if lg = "女".toList then "FEMALE".toList
  else if lg = "male".toList then "MALE".toList
  else if lg = "female".toList then "FEMALE".toList
  else if lg = "m".toList then "MALE".toList
  else if lg = "f".toList then "FEMALE".toList
  else "OTHER".toList

structure Ymd where
  y : Nat
  m : Nat
  d : Nat
deriving DecidableEq

/-- date_raw.replace("年","-").replace("月","-").replace("日",""). -/
def cleanDate (cs : List Char) : List Char :=
  cs.filterMap (fun c =>
    if c = '年' || c = '月' then some '-'
    else if c = '日' then none
    else some c)

def d2 (a b : Char) : Nat := digitVal a * 10 + digitVal b

/-- strptime %m group: candidate (value, rest) pairs in the order the
    regex alternation 1[0-2]|0[1-9]|[1-9] tries them. -/
def mCands : List Char → List (Nat × List Char)
  | a :: b :: rest =>
    (if a = '1' ∧ (b = '0' ∨ b = '1' ∨ b = '2') then [(d2 a b, rest)] else []) ++
    (if a = '0' ∧ b.isDigit ∧ b ≠ '0' then [(d2 a b, rest)] else []) ++
    (if a.isDigit ∧ a ≠ '0' then [(digitVal a, b :: rest)] else [])
  | [a] => if a.isDigit ∧ a ≠ '0' then [(digitVal a, [])] else []
  | [] => []

/-- strptime %d group: 3[01]|[12]\d|0[1-9]|[1-9]. -/
def dCands : List Char → List (Nat × List Char)
  | a :: b :: rest =>
    (if a = '3' ∧ (b = '0' ∨ b = '1') then [(d2 a b, rest)] else []) ++
    (if (a = '1' ∨ a = '2') ∧ b.isDigit then [(d2 a b, rest)] else []) ++
    (if a = '0' ∧ b.isDigit ∧ b ≠ '0' then [(d2 a b, rest)] else []) ++
    (if a.isDigit ∧ a ≠ '0' then [(digitVal a, b :: rest)] else [])
  | [a] => if a.isDigit ∧ a ≠ '0' then [(digitVal a, [])] else []
  | [] => []

/-- strptime %Y group: exactly four digits. -/
def yTok : List Char → Option (Nat × List Char)
  | a :: b :: c :: d :: rest =>
    if a.isDigit ∧ b.isDigit ∧ c.isDigit ∧ d.isDigit then
      some (digitsToNat [a, b, c, d], rest)
    else none
  | _ => none

def firstSome {α β : Type} : List α → (α → Option β) → Option β
  | [], _ => none
  | x :: r, f =>
    match f x with
    | some b => some b
    | none => firstSome r f

def expectChar (ch : Char) : List Char → Option (List Char)
  | c :: rest => if c = ch then some rest else none
  | [] => none

def isLeap (y : Nat) : Bool := (y % 4 = 0 && y % 100 ≠ 0) || y % 400 = 0

def daysInMonth (y m : Nat) : Nat :=
  if m = 2 then (if isLeap y then 29 else 28)
  else if m = 4 ∨ m = 6 ∨ m = 9 ∨ m = 11 then 30
  else 31

/-- The validation performed by the datetime constructor (the month
    range is already enforced by the %m regex; years have 4 digits). -/
def validYmd (x : Ymd) : Bool :=
  1 ≤ x.y && 1 ≤ x.d && x.d ≤ daysInMonth x.y x.m

/-- Full-string regex match of "%Y<sep>%m<sep>%d". -/
def regexYmdSep (sep : Char) (cs : List Char) : Option Ymd :=
  match yTok cs with
  | none => none
  | some (y, r1) =>
    (expectChar sep r1).bind (fun r2 =>
      firstSome (mCands r2) (fun p =>
        (expectChar sep p.2).bind (fun r4 =>
          firstSome (dCands r4) (fun q =>
            if q.2 = [] then some (Ymd.mk y p.1 q.1) else none))))

/-- Full-string regex match of "%m/%d/%Y" (US template). -/
def regexMdy (cs : List Char) : Option Ymd :=
  firstSome (mCands cs) (fun p =>
    (expectChar '/' p.2).bind (fun r2 =>
      firstSome (dCands r2) (fun q =>
        (expectChar '/' q.2).bind (fun r4 =>
          match yTok r4 with
          | some (y, r5) => if r5 = [] then some (Ymd.mk y p.1 q.1) else none
          | none => none))))

/-- Full-string regex match of "%d/%m/%Y" (EU template). -/
def regexDmy (cs : List Char) : Option Ymd :=
  firstSome (dCands cs) (fun q =>
    (expectChar '/' q.2).bind (fun r2 =>
      firstSome (mCands r2) (fun p =>
        (expectChar '/' p.2).bind (fun r4 =>
          match yTok r4 with
          | some (y, r5) => if r5 = [] then some (Ymd.mk y p.1 q.1) else none
          | none => none))))

/-- Full-string regex match of "%Y%m%d" (compact template). -/
def regexCompact (cs : List Char) : Option Ymd :=
  match yTok cs with
  | none => none
  | some (y, r1) =>
    firstSome (mCands r1) (fun p =>
      firstSome (dCands p.2) (fun q =>
        if q.2 = [] then some (Ymd.mk y p.1 q.1) else none))

/-- One strptime attempt: regex match, then datetime validation
    (a validation failure raises ValueError, which the caller catches
    exactly like a match failure, moving on to the next template). -/
def chkValid (o : Option Ymd) : Option Ymd :=
  o.bind (fun x => if validYmd x then some x else none)

/-- The template list, tried in order; first success wins. -/
def strptimeFirst (cs : List Char) : Option Ymd :=
  match chkValid (regexYmdSep '-' cs) with
  | some x => some x
  | none =>
    match chkValid (regexYmdSep '/' cs) with
    | some x => some x
    | none =>
      match chkValid (regexMdy cs) with
      | some x => some x
      | none =>
        match chkValid (regexDmy cs) with
        | some x => some x
        | none => chkValid (regexCompact cs)

def digitChar (n : Nat) : Char := Char.ofNat (48 + n)

def pad2 (n : Nat) : List Char :=
  if n < 10 then ['0', digitChar n]
  else [digitChar (n / 10), digitChar (n % 10)]

def pad4 (y : Nat) : List Char :=
  [digitChar (y / 1000 % 10), digitChar (y / 100 % 10),
   digitChar (y / 10 % 10), digitChar (y % 10)]

/-- strftime("%Y-%m-%d") on the parsed date. -/
def fmtIso (x : Ymd) : List Char :=
  pad4 x.y ++ '-' :: (pad2 x.m ++ '-' :: pad2 x.d)

/-- _normalize_date (core/ocr_parser.py). -/
def normalize_date (raw : List Char) : List Char :=
  match strptimeFirst (cleanDate raw) with
  | some x => fmtIso x
  | none => raw

/-- C6: date normalization tries the five templates in order on the
    marker-cleaned string: "01/15/1970" resolves via the US template to
    "1970-01-15"; the ambiguous "03/04/1998" is resolved by template
    order to March 4 (even though the EU template would also match, as
    April 3); CJK markers are cleaned first ("1970年01月15日" yields
    "1970-01-15"); and whenever no template parses, the raw string is
    returned unchanged and no error is raised. -/
theorem C6_date_normalization :
    normalize_date "01/15/1970".toList = "1970-01-15".toList ∧
    normalize_date "03/04/1998".toList = "1998-03-04".toList ∧
    chkValid (regexDmy (cleanDate "03/04/1998".toList)) = some (Ymd.mk 1998 4 3) ∧
    normalize_date "1970年01月15日".toList = "1970-01-15".toList ∧
    (∀ raw : List Char, strptimeFirst (cleanDate raw) = none →
      normalize_date raw = raw) := by
  refine ⟨rfl, rfl, rfl, rfl, ?_⟩
  intro raw h
  unfold normalize_date
  rw [h]

/-- C6 witness: the no-template-parses clause at a concrete input. -/
theorem C6_date_normalization_w :
    strptimeFirst (cleanDate "next week".toList) = none ∧
    normalize_date "next week".toList = "next week".toList :=
  ⟨rfl, C6_date_normalization.2.2.2.2 "next week".toList rfl⟩

/-! ## FieldExtractor: _parse_generic_cn (core/ocr_parser.py)

    The function fills a dict with first_name, last_name, birth_date,
    gender, ehr_patient_id (all initially None) and additional_context
    (the full raw text), using ordered regex pattern lists per field;
    for each field, re.search of the first matching pattern wins.

    The patterns are embedded as explicit scanners with re.search
    semantics: positions are scanned left to right and at each position
    the pattern is matched with the same backtracking order as the
    regex alternation/quantifiers; \s* after the colon is greedy over
    whitespace, and captures of negated classes are greedy. -/

structure PatientRecord where
  first_name : Option (List Char)
  last_name : Option (List Char)
  birth_date : Option (List Char)
  gender : Option (List Char)
  ehr_patient_id : Option (List Char)
  additional_context : List Char

/-- Match a literal at the current position, returning the rest. -/
def matchLit : List Char → List Char → Option (List Char)
  | [], cs => some cs
  | k :: ks, c :: cs => if c = k then matchLit ks cs else none
  | _ :: _, [] => none

/-- Case-insensitive literal match, returning (text as written, rest). -/
def ciMatchLit : List Char → List Char → Option (List Char × List Char)
  | [], cs => some ([], cs)
  | k :: ks, c :: cs =>
    if pyLower c = pyLower k then
      (ciMatchLit ks cs).map (fun p => (c :: p.1, p.2))
    else none
  | _ :: _, [] => none

/-- re.search: try the position matcher at every position, leftmost
    match wins. -/
def searchAt {β : Type} (f : List Char → Option β) : List Char → Option β
  | [] => f []
  | c :: cs =>
    match f (c :: cs) with
    | some b => some b
    | none => searchAt f cs

/-- "<key>[:：]\s*" at the current position; rest positioned after the
    greedily-consumed whitespace. -/
def afterKeyColon (ci : Bool) (key : List Char) (cs : List Char) :
    Option (List Char) :=
  match (if ci then (ciMatchLit key cs).map (fun p => p.2) else matchLit key cs) with
  | none => none
  | some r1 =>
    match r1 with
    | c :: r2 =>
      if c = ':' ∨ c = '：' then some (r2.dropWhile pyWsChar) else none
    | [] => none

/-- A nonempty greedy capture of a character class. -/
def capClass (good : Char → Bool) (cs : List Char) : Option (List Char) :=
  let cap := cs.takeWhile good
  if cap.isEmpty then none else some cap

/-- Name patterns, in source order (no IGNORECASE flag on these):
    姓名 / 患者姓名 / 病人姓名 / Name, each followed by [:：]\s* and a
    greedy nonempty capture of [^\n\s] (i.e. non-whitespace). -/
def findCnName (t : List Char) : Option (List Char) :=
  match searchAt (fun cs =>
      (afterKeyColon false ("姓名".toList) cs).bind
        (capClass (fun c => ! pyWsChar c))) t with
  | some r => some r
  | none =>
    match searchAt (fun cs =>
        (afterKeyColon false ("患者姓名".toList) cs).bind
          (capClass (fun c => ! pyWsChar c))) t with
    | some r => some r
    | none =>
      match searchAt (fun cs =>
          (afterKeyColon false ("病人姓名".toList) cs).bind
            (capClass (fun c => ! pyWsChar c))) t with
      | some r => some r
      | none =>
        searchAt (fun cs =>
          (afterKeyColon false ("Name".toList) cs).bind
            (capClass (fun c => ! pyWsChar c))) t

/-- The gender value alternation ([男女]|Male|Female|MALE|FEMALE with
    IGNORECASE), returning the matched text as written. -/
def genderAlt : List Char → Option (List Char)
  | [] => none
  | c :: cs =>
    if c = '男' ∨ c = '女' then some [c]
    else
      match ciMatchLit ("male".toList) (c :: cs) with
      | some (w, _) => some w
      | none =>
        match ciMatchLit ("female".toList) (c :: cs) with
        | some (w, _) => some w
        | none => none

/-- Gender patterns: 性别[:：]\s*(...) then Sex[:：]\s*(...), with
    IGNORECASE. -/
def findGenderRaw (t : List Char) : Option (List Char) :=
  match searchAt (fun cs =>
      (afterKeyColon true ("性别".toList) cs).bind genderAlt) t with
  | some r => some r
  | none =>
    searchAt (fun cs => (afterKeyColon true ("Sex".toList) cs).bind genderAlt) t

/-- Greedy \d{1,2} followed by a separator class (with the regex
    backtracking from two digits to one); returns (consumed, rest). -/
def ddSep (sep : Char → Bool) : List Char → Option (List Char × List Char)
  | a :: b :: rest =>
    match rest with
    | c :: r =>
      if a.isDigit ∧ b.isDigit ∧ sep c then some ([a, b, c], r)
      else if a.isDigit ∧ sep b then some ([a, b], c :: r)
      else none
    | [] => if a.isDigit ∧ sep b then some ([a, b], []) else none
  | _ => none

/-- Trailing 日? of the CJK date token. -/
def dayMark : List Char → List Char
  | '日' :: _ => ['日']
  | _ => []

/-- Greedy trailing \d{1,2}日?. -/
def ddDay : List Char → Option (List Char)
  | a :: b :: r =>
    if a.isDigit ∧ b.isDigit then some ([a, b] ++ dayMark r)
    else if a.isDigit then some ([a] ++ dayMark (b :: r))
    else none
  | [a] => if a.isDigit then some [a] else none
  | [] => none

/-- Greedy trailing \d{1,2} (Latin date token). -/
def ddPlain : List Char → Option (List Char)
  | a :: b :: _ =>
    if a.isDigit ∧ b.isDigit then some [a, b]
    else if a.isDigit then some [a]
    else none
  | [a] => if a.isDigit then some [a] else none
  | [] => none

/-- Date token: four digits, a dash, slash or 年, one or two digits,
    a dash, slash or 月, one or two digits, an optional 日, at the
    current position. -/
def dateTokCn (cs : List Char) : Option (List Char) :=
  match cs with
  | a :: b :: c :: d :: rest =>
    if a.isDigit ∧ b.isDigit ∧ c.isDigit ∧ d.isDigit then
      match rest with
      | s1 :: r1 =>
        if s1 = '-' ∨ s1 = '/' ∨ s1 = '年' then
          match ddSep (fun x => x = '-' || x = '/' || x = '月') r1 with
          | some (mid, r2) =>
            (ddDay r2).map (fun tail => [a, b, c, d, s1] ++ mid ++ tail)
          | none => none
        else none
      | [] => none
    else none
  | _ => none

/-- Date token: four digits, a dash or slash, one or two digits, a
    dash or slash, one or two digits, at the current position. -/
def dateTokEn (cs : List Char) : Option (List Char) :=
  match cs with
  | a :: b :: c :: d :: rest =>
    if a.isDigit ∧ b.isDigit ∧ c.isDigit ∧ d.isDigit then
      match rest with
      | s1 :: r1 =>
        if s1 = '-' ∨ s1 = '/' then
          match ddSep (fun x => x = '-' || x = '/') r1 with
          | some (mid, r2) =>
            (ddPlain r2).map (fun tail => [a, b, c, d, s1] ++ mid ++ tail)
          | none => none
        else none
      | [] => none
    else none
  | _ => none

/-- "Birth\s*Date[:：]\s*" at the current position (IGNORECASE). -/
def birthDateKeyAt (cs : List Char) : Option (List Char) :=
  match ciMatchLit ("birth".toList) cs with
  | none => none
  | some (_, r1) =>
    afterKeyColon true ("date".toList) (r1.dropWhile pyWsChar)

/-- Birth-date patterns, in source order (all searched with
    IGNORECASE): 出生日期, 出生, DOB, Birth\s*Date, then the bare CJK
    date token anywhere. -/
def findBirthRaw (t : List Char) : Option (List Char) :=
  match searchAt (fun cs =>
      (afterKeyColon true ("出生日期".toList) cs).bind dateTokCn) t with
  | some r => some r
  | none =>
    match searchAt (fun cs =>
        (afterKeyColon true ("出生".toList) cs).bind dateTokCn) t with
    | some r => some r
    | none =>
      match searchAt (fun cs =>
          (afterKeyColon true ("DOB".toList) cs).bind dateTokEn) t with
      | some r => some r
      | none =>
        match searchAt (fun cs => (birthDateKeyAt cs).bind dateTokEn) t with
        | some r => some r
        | none => searchAt dateTokCn t

def isAsciiAlnum (c : Char) : Bool :=
  c.isDigit || ('a' ≤ c ∧ c ≤ 'z') || ('A' ≤ c ∧ c ≤ 'Z')

/-- Bare identifier pattern (EMR\d+|HIS\d+|P\d{6,}) at the current
    position, IGNORECASE, returning the matched text as written. -/
def bareIdAt (cs : List Char) : Option (List Char) :=
  match ciMatchLit ("emr".toList) cs with
  | some (w, r) =>
    (capClass Char.isDigit r).map (fun ds => w ++ ds)
  | none =>
    match ciMatchLit ("his".toList) cs with
    | some (w, r) =>
      (capClass Char.isDigit r).map (fun ds => w ++ ds)
    | none =>
      match ciMatchLit ("p".toList) cs with
      | some (w, r) =>
        (capClass Char.isDigit r).bind (fun ds =>
          if 6 ≤ ds.length then some (w ++ ds) else none)
      | none => none

/-- "Patient\s*ID[:：]\s*" at the current position (IGNORECASE). -/
def patientIdKeyAt (cs : List Char) : Option (List Char) :=
  match ciMatchLit ("patient".toList) cs with
  | none => none
  | some (_, r1) =>
    afterKeyColon true ("id".toList) (r1.dropWhile pyWsChar)

/-- Identifier patterns, in source order, all with IGNORECASE:
    病历号, 患者编号, 病人ID, MRN, Patient\s*ID with an alphanumeric
    capture, then the bare EMR/HIS/P token anywhere. -/
def findIdRaw (t : List Char) : Option (List Char) :=
  match searchAt (fun cs =>
      (afterKeyColon true ("病历号".toList) cs).bind (capClass isAsciiAlnum)) t with
  | some r => some r
  | none =>
    match searchAt (fun cs =>
        (afterKeyColon true ("患者编号".toList) cs).bind (capClass isAsciiAlnum)) t with
    | some r => some r
    | none =>
      match searchAt (fun cs =>
          (afterKeyColon true ("病人ID".toList) cs).bind (capClass isAsciiAlnum)) t with
      | some r => some r
      | none =>
        match searchAt (fun cs =>
            (afterKeyColon true ("MRN".toList) cs).bind (capClass isAsciiAlnum)) t with
        | some r => some r
        | none =>
          match searchAt (fun cs =>
              (patientIdKeyAt cs).bind (capClass isAsciiAlnum)) t with
          | some r => some r
          | none => searchAt bareIdAt t

/-- _parse_generic_cn: the captured full name is split with the first
    character as family name and the rest (possibly empty) as given
    name; the gender and date captures go through the normalizers and
    the identifier capture through .strip().upper(); the raw text is
    stored as additional_context. -/
def parse_generic_cn (t : List Char) : PatientRecord :=
  let nm := findCnName t
  { first_name := nm.map (fun full => full.drop 1)
    last_name := nm.map (fun full => full.take 1)
    birth_date := (findBirthRaw t).map normalize_date
    gender := (findGenderRaw t).map normalize_gender
    ehr_patient_id := (findIdRaw t).map (fun s => (pyStrip s).map pyUpper)
    additional_context := t }

/-! ## RecordValidator: the required-field completeness check of
    run_emr_to_heidi_pipeline (integrations/standalone/pipeline.py):

      required_fields = ["first_name", "last_name", "birth_date",
                         "gender", "ehr_patient_id"]
      missing_fields = [f for f in required_fields
                        if not patient_info_dict.get(f)]

    Python truthiness: a missing key (None) and an empty string are
    both falsy. -/

def falsyField : Option (List Char) → Bool
  | none => true
  | some [] => true
  | some (_ :: _) => false

def requiredFields : List (List Char) :=
  ["first_name".toList, "last_name".toList, "birth_date".toList,
   "gender".toList, "ehr_patient_id".toList]

def recGet (r : PatientRecord) (f : List Char) : Option (List Char) :=
  if f = "first_name".toList then r.first_name
  else if f = "last_name".toList then r.last_name
  else if f = "birth_date".toList then r.birth_date
  else if f = "gender".toList then r.gender
  else if f = "ehr_patient_id".toList then r.ehr_patient_id
  else none

def missing_fields (r : PatientRecord) : List (List Char) :=
  requiredFields.filter (fun f => falsyField (recGet r f))

/-! ### Claims C7 and C10 -/

/-- C7: under the CJK dialect the matched full name is split with its
    first character as family name and the remaining characters as
    given name (so a single-character name gets an empty given name),
    and the scenario input yields exactly last_name 张, first_name 三,
    gender MALE, birth_date 1970-01-15 and patient id HIS123456. -/
theorem C7_cjk_name_split :
    (∀ t full : List Char, findCnName t = some full →
      (parse_generic_cn t).last_name = some (full.take 1) ∧
      (parse_generic_cn t).first_name = some (full.drop 1)) ∧
    parse_generic_cn
        ("姓名: 张三\n性别: 男\n出生日期: 1970年01月15日\n病历号: HIS123456".toList) =
      { first_name := some ("三".toList), last_name := some ("张".toList),
        birth_date := some ("1970-01-15".toList),
        gender := some ("MALE".toList),
        ehr_patient_id := some ("HIS123456".toList),
        additional_context :=
          "姓名: 张三\n性别: 男\n出生日期: 1970年01月15日\n病历号: HIS123456".toList } := by
  refine ⟨?_, rfl⟩
  intro t full h
  constructor <;> simp [parse_generic_cn, h]

/-- C7 witness: the splitting rule applied to the scenario's matched
    name 张三. -/
theorem C7_cjk_name_split_w :
    findCnName
        ("姓名: 张三\n性别: 男\n出生日期: 1970年01月15日\n病历号: HIS123456".toList) =
      some ("张三".toList) ∧
    ((parse_generic_cn
        ("姓名: 张三\n性别: 男\n出生日期: 1970年01月15日\n病历号: HIS123456".toList)).last_name =
          some (("张三".toList).take 1) ∧
     (parse_generic_cn
        ("姓名: 张三\n性别: 男\n出生日期: 1970年01月15日\n病历号: HIS123456".toList)).first_name =
          some (("张三".toList).drop 1)) :=
  ⟨rfl, C7_cjk_name_split.1
    ("姓名: 张三\n性别: 男\n出生日期: 1970年01月15日\n病历号: HIS123456".toList)
    ("张三".toList) rfl⟩

/-- C10: whenever the CJK name capture is a single character, the
    extractor stores first_name as the empty string (present, not
    absent), and the pipeline's falsy-based completeness check then
    reports first_name among the missing required fields, so the
    record is rejected as incomplete. -/
theorem C10_single_char_name_incomplete :
    ∀ t full : List Char, findCnName t = some full → full.length = 1 →
      (parse_generic_cn t).first_name = some [] ∧
      "first_name".toList ∈ missing_fields (parse_generic_cn t) := by
  intro t full h hlen
  have hdrop : full.drop 1 = [] := by
    cases full with
    | nil => simp at hlen
    | cons a as =>
      simp only [List.length_cons, Nat.add_left_eq_self] at hlen
      simp [List.length_eq_zero.mp hlen]
  have htail : full.tail = [] := by rw [← List.drop_one]; exact hdrop
  have hfn : (parse_generic_cn t).first_name = some [] := by
    simp [parse_generic_cn, h, hdrop, htail]
  refine ⟨hfn, List.mem_filter.mpr ⟨by decide, ?_⟩⟩
  simp [recGet, hfn, falsyField]

/-- C10 witness: a single-character name 张; first_name comes back as
    the empty string and is reported missing. -/
theorem C10_single_char_name_incomplete_w :
    findCnName
        ("姓名: 张\n性别: 男\n出生日期: 1970年01月15日\n病历号: HIS123456".toList) =
      some ("张".toList) ∧
    ("张".toList).length = 1 ∧
    ((parse_generic_cn
        ("姓名: 张\n性别: 男\n出生日期: 1970年01月15日\n病历号: HIS123456".toList)).first_name =
          some [] ∧
     "first_name".toList ∈ missing_fields (parse_generic_cn
        ("姓名: 张\n性别: 男\n出生日期: 1970年01月15日\n病历号: HIS123456".toList))) :=
  ⟨rfl, rfl, C10_single_char_name_incomplete
    ("姓名: 张\n性别: 男\n出生日期: 1970年01月15日\n病历号: HIS123456".toList)
    ("张".toList) rfl rfl⟩

/-! ## DialectDetector: EMRSystemDetector.detect_emr_system
    (core/smart_capture.py)

    For each signature in declaration order, the keywords found in the
    text (case-insensitive substring search, re.IGNORECASE) are
    counted; a signature qualifies when the count reaches its minimum;
    confidence is count / total keywords; the running best is replaced
    only on strictly greater confidence (so the earliest maximum wins);
    if nothing qualifies, a script heuristic picks the generic CJK
    profile when the text contains a CJK ideograph, else the generic
    Latin profile. -/

structure EMRSig where
  sid : List Char
  keywords : List (List Char)
  minMatches : Nat

def sigGenericCn : EMRSig :=
  ⟨"generic_cn".toList,
   ["姓名".toList, "性别".toList, "出生日期".toList, "病历号".toList,
    "患者".toList, "病人".toList], 3⟩

def sigGenericEn : EMRSig :=
  ⟨"generic_en".toList,
   ["Name".toList, "Gender".toList, "Date of Birth".toList,
    "Patient ID".toList, "MRN".toList, "DOB".toList], 3⟩

def sigHisCn : EMRSig :=
  ⟨"his_cn".toList,
   ["HIS".toList, "医院信息系统".toList, "住院".toList, "门诊".toList,
    "就诊".toList], 2⟩

def sigEpic : EMRSig :=
  ⟨"epic".toList, ["Epic".toList, "MyChart".toList, "Hyperspace".toList], 1⟩

def sigCerner : EMRSig :=
  ⟨"cerner".toList,
   ["Cerner".toList, "PowerChart".toList, "Millennium".toList], 1⟩

/-- EMR_SIGNATURES in dict declaration order (Python dicts preserve
    insertion order). -/
def EMR_SIGNATURES : List EMRSig :=
  [sigGenericCn, sigGenericEn, sigHisCn, sigEpic, sigCerner]

/-- Substring occurrence test. -/
def occursSub (pat : List Char) : List Char → Bool
  | [] => pat.isEmpty
  | c :: cs => pat.isPrefixOf (c :: cs) || occursSub pat cs

/-- The keywords of a signature found in the text, in keyword order
    (re.search of the literal keyword with IGNORECASE). -/
def kwMatches (sig : EMRSig) (t : List Char) : List (List Char) :=
  sig.keywords.filter (fun k => occursSub (k.map pyLower) (t.map pyLower))

/-- confidence = match_count / len(keywords). -/
def sigConf (sig : EMRSig) (t : List Char) : ℚ :=
  ((kwMatches sig t).length : ℚ) / ((sig.keywords.length : ℚ))

/-- Python: any(char >= u4e00 and char <= u9fff for char in text). -/
def hasCJK (t : List Char) : Bool :=
  t.any (fun c => 0x4e00 ≤ c.toNat && c.toNat ≤ 0x9fff)

/-- One iteration of the detection loop: the accumulator mirrors the
    (best_match, best_score, best_keywords) variables. -/
def detectStep (t : List Char)
    (acc : Option (List Char) × ℚ × List (List Char)) (sig : EMRSig) :
    Option (List Char) × ℚ × List (List Char) :=
  if sig.minMatches ≤ (kwMatches sig t).length ∧ acc.2.1 < sigConf sig t
  then (some sig.sid, sigConf sig t, kwMatches sig t)
  else acc

/-- EMRSystemDetector.detect_emr_system, as the triple
    (system_type, confidence, matched_keywords). -/
def detect_emr_system (t : List Char) : List Char × ℚ × List (List Char) :=
  match EMR_SIGNATURES.foldl (detectStep t) (none, 0, []) with
  | (some sid, conf, kws) => (sid, conf, kws)
  | (none, _, _) =>
    if hasCJK t then ("generic_cn".toList, 1/2, ["中文字符检测".toList])
    else ("generic_en".toList, 1/2, ["英文字符检测".toList])

/-! ### Detector loop invariants -/

lemma foldl_detectStep_sid (t : List Char) :
    ∀ (L : List EMRSig) (acc : Option (List Char) × ℚ × List (List Char)),
      (L.foldl (detectStep t) acc).1 = acc.1 ∨
      ∃ s ∈ L, (L.foldl (detectStep t) acc).1 = some s.sid := by
  intro L
  induction L with
  | nil => intro acc; left; rfl
  | cons x xs ih =>
    intro acc
    rw [List.foldl_cons]
    rcases ih (detectStep t acc x) with h | ⟨s, hs, h⟩
    · by_cases hc : x.minMatches ≤ (kwMatches x t).length ∧ acc.2.1 < sigConf x t
      · right
        refine ⟨x, List.mem_cons_self x xs, ?_⟩
        rw [h]
        simp [detectStep, hc]
      · left
        rw [h]
        simp [detectStep, hc]
    · right
      exact ⟨s, List.mem_cons_of_mem _ hs, h⟩

lemma foldl_detectStep_keep (t : List Char) :
    ∀ (L : List EMRSig) (acc : Option (List Char) × ℚ × List (List Char)),
      (∀ s ∈ L, ¬ (s.minMatches ≤ (kwMatches s t).length)) →
      L.foldl (detectStep t) acc = acc := by
  intro L
  induction L with
  | nil => intro acc _; rfl
  | cons x xs ih =>
    intro acc hL
    rw [List.foldl_cons]
    have hx : detectStep t acc x = acc := by
      have : ¬ (x.minMatches ≤ (kwMatches x t).length ∧ acc.2.1 < sigConf x t) :=
        fun hc => hL x (List.mem_cons_self x xs) hc.1
      simp [detectStep, this]
    rw [hx]
    exact ih acc (fun s hs => hL s (List.mem_cons_of_mem _ hs))

lemma foldl_detectStep_mono (t : List Char) :
    ∀ (L : List EMRSig) (acc : Option (List Char) × ℚ × List (List Char)),
      acc.2.1 ≤ (L.foldl (detectStep t) acc).2.1 := by
  intro L
  induction L with
  | nil => intro acc; exact le_refl _
  | cons x xs ih =>
    intro acc
    rw [List.foldl_cons]
    by_cases hc : x.minMatches ≤ (kwMatches x t).length ∧ acc.2.1 < sigConf x t
    · calc acc.2.1 ≤ (detectStep t acc x).2.1 := by simp [detectStep, hc, hc.2.le]
        _ ≤ _ := ih (detectStep t acc x)
    · have hx : detectStep t acc x = acc := by simp [detectStep, hc]
      rw [hx]
      exact ih acc

lemma foldl_detectStep_max (t : List Char) :
    ∀ (L : List EMRSig) (acc : Option (List Char) × ℚ × List (List Char))
      (s : EMRSig), s ∈ L → s.minMatches ≤ (kwMatches s t).length →
      sigConf s t ≤ (L.foldl (detectStep t) acc).2.1 := by
  intro L
  induction L with
  | nil => intro acc s hs _; exact absurd hs (List.not_mem_nil s)
  | cons x xs ih =>
    intro acc s hs hq
    rw [List.foldl_cons]
    rcases List.mem_cons.mp hs with rfl | hmem
    · by_cases hc : s.minMatches ≤ (kwMatches s t).length ∧ acc.2.1 < sigConf s t
      · have hstep : (detectStep t acc s).2.1 = sigConf s t := by
          simp [detectStep, hc]
        calc sigConf s t = (detectStep t acc s).2.1 := hstep.symm
          _ ≤ _ := foldl_detectStep_mono t xs (detectStep t acc s)
      · have hle : sigConf s t ≤ acc.2.1 :=
          le_of_not_lt (fun hlt => hc ⟨hq, hlt⟩)
        have hx : detectStep t acc s = acc := by simp [detectStep, hc]
        rw [hx]
        exact le_trans hle (foldl_detectStep_mono t xs acc)
    · exact ih (detectStep t acc x) s hmem hq

lemma foldl_detectStep_some_stays (t : List Char) :
    ∀ (L : List EMRSig) (acc : Option (List Char) × ℚ × List (List Char)),
      acc.1 ≠ none → (L.foldl (detectStep t) acc).1 ≠ none := by
  intro L
  induction L with
  | nil => intro acc h; exact h
  | cons x xs ih =>
    intro acc h
    rw [List.foldl_cons]
    refine ih (detectStep t acc x) ?_
    by_cases hc : x.minMatches ≤ (kwMatches x t).length ∧ acc.2.1 < sigConf x t
    · simp [detectStep, hc]
    · simpa [detectStep, hc] using h

lemma foldl_detectStep_none_frozen (t : List Char) :
    ∀ (L : List EMRSig) (acc : Option (List Char) × ℚ × List (List Char)),
      acc.1 = none → (L.foldl (detectStep t) acc).1 = none →
      L.foldl (detectStep t) acc = acc := by
  intro L
  induction L with
  | nil => intro acc _ _; rfl
  | cons x xs ih =>
    intro acc hacc hfin
    rw [List.foldl_cons] at hfin ⊢
    by_cases hc : x.minMatches ≤ (kwMatches x t).length ∧ acc.2.1 < sigConf x t
    · exfalso
      refine foldl_detectStep_some_stays t xs (detectStep t acc x) ?_ hfin
      simp [detectStep, hc]
    · have hx : detectStep t acc x = acc := by simp [detectStep, hc]
      rw [hx] at hfin ⊢
      exact ih acc hacc hfin

/-- A text on which the first two profiles tie: generic_cn and
    generic_en each match exactly 3 of their 6 keywords. -/
def tieText : List Char := "姓名 性别 患者 Name Gender MRN".toList

/-- C8: the detector always returns one of the declared profile ids
    (so there is no unknown terminal state); when no profile reaches
    its minimum match count, the script heuristic picks generic_cn for
    CJK text and generic_en otherwise (the empty string gets
    generic_en); among qualifying profiles the winner's confidence
    (match count / keyword count) is maximal; and on a concrete tie
    both generic profiles qualify with confidence 1/2 and the
    earlier-declared generic_cn wins. -/
theorem C8_dialect_detection :
    (∀ t : List Char,
      (detect_emr_system t).1 ∈ EMR_SIGNATURES.map EMRSig.sid) ∧
    (∀ t : List Char,
      (∀ s ∈ EMR_SIGNATURES, ¬ (s.minMatches ≤ (kwMatches s t).length)) →
      detect_emr_system t =
        (if hasCJK t then ("generic_cn".toList, 1/2, ["中文字符检测".toList])
         else ("generic_en".toList, 1/2, ["英文字符检测".toList]))) ∧
    (∀ (t : List Char) (s : EMRSig), s ∈ EMR_SIGNATURES →
      s.minMatches ≤ (kwMatches s t).length →
      sigConf s t ≤ (detect_emr_system t).2.1) ∧
    detect_emr_system [] =
      ("generic_en".toList, 1/2, ["英文字符检测".toList]) ∧
    ((detect_emr_system tieText).1 = "generic_cn".toList ∧
      sigConf sigGenericCn tieText = sigConf sigGenericEn tieText ∧
      sigGenericEn.minMatches ≤ (kwMatches sigGenericEn tieText).length) := by
  have hc1 : sigConf sigGenericCn tieText = 1/2 := by
    unfold sigConf
    rw [show (kwMatches sigGenericCn tieText).length = 3 from by decide,
      show sigGenericCn.keywords.length = 6 from by decide]
    norm_num
  have hc2 : sigConf sigGenericEn tieText = 1/2 := by
    unfold sigConf
    rw [show (kwMatches sigGenericEn tieText).length = 3 from by decide,
      show sigGenericEn.keywords.length = 6 from by decide]
    norm_num
  refine ⟨?_, ?_, ?_, by rfl, ?_, by rw [hc1, hc2], by decide⟩
  · -- always one of the declared profile ids
    intro t
    rcases h : EMR_SIGNATURES.foldl (detectStep t) (none, 0, []) with ⟨o, conf, kws⟩
    have hsid := foldl_detectStep_sid t EMR_SIGNATURES (none, 0, [])
    rw [h] at hsid
    unfold detect_emr_system
    rw [h]
    cases o with
    | some sid =>
      rcases hsid with h1 | ⟨s, hs, h1⟩
      · exact absurd h1 (by simp)
      · have hss : sid = s.sid := by simpa using h1
        rw [hss]
        exact List.mem_map_of_mem EMRSig.sid hs
    | none =>
      by_cases hcjk : hasCJK t = true <;> simp only [hcjk] <;> simp <;>
        first
        | exact ⟨sigGenericCn, by simp [EMR_SIGNATURES], by decide⟩
        | exact ⟨sigGenericEn, by simp [EMR_SIGNATURES], by decide⟩
  · -- no qualifier: the script fallback
    intro t hq
    unfold detect_emr_system
    rw [foldl_detectStep_keep t EMR_SIGNATURES (none, 0, []) hq]
  · -- the winner's confidence dominates every qualifier
    intro t s hs hq
    have hmax := foldl_detectStep_max t EMR_SIGNATURES (none, 0, []) s hs hq
    rcases h : EMR_SIGNATURES.foldl (detectStep t) (none, 0, []) with ⟨o, conf, kws⟩
    rw [h] at hmax
    unfold detect_emr_system
    rw [h]
    cases o with
    | some sid => simpa using hmax
    | none =>
      have hfr := foldl_detectStep_none_frozen t EMR_SIGNATURES (none, 0, []) rfl
        (by rw [h])
      rw [h] at hfr
      have hconf : conf = 0 := by
        have := congrArg (fun p => p.2.1) hfr
        simpa using this
      have hle : sigConf s t ≤ 0 := by
        simpa [hconf] using hmax
      have hhalf : sigConf s t ≤ 1/2 := le_trans hle (by norm_num)
      by_cases hcjk : hasCJK t = true <;> simpa [hcjk] using hhalf
  · -- the tie: generic_cn qualifies first and generic_en cannot beat it
    have cond1 : sigGenericCn.minMatches ≤ (kwMatches sigGenericCn tieText).length ∧
        ((none, 0, []) :
          Option (List Char) × ℚ × List (List Char)).2.1 < sigConf sigGenericCn tieText := by
      refine ⟨by decide, ?_⟩
      rw [hc1]
      norm_num
    have s1 : detectStep tieText (none, 0, []) sigGenericCn =
        (some sigGenericCn.sid, sigConf sigGenericCn tieText,
          kwMatches sigGenericCn tieText) := by
      unfold detectStep
      exact if_pos cond1
    have s2 : detectStep tieText
        (some sigGenericCn.sid, sigConf sigGenericCn tieText,
          kwMatches sigGenericCn tieText) sigGenericEn =
        (some sigGenericCn.sid, sigConf sigGenericCn tieText,
          kwMatches sigGenericCn tieText) := by
      unfold detectStep
      refine if_neg (fun hcond => ?_)
      have hlt := hcond.2
      rw [hc2] at hlt
      simp only [hc1] at hlt
      exact lt_irrefl _ hlt
    have s3 : ∀ acc : Option (List Char) × ℚ × List (List Char),
        detectStep tieText acc sigHisCn = acc := fun acc =>
      if_neg (fun hcond => absurd hcond.1 (by decide))
    have s4 : ∀ acc : Option (List Char) × ℚ × List (List Char),
        detectStep tieText acc sigEpic = acc := fun acc =>
      if_neg (fun hcond => absurd hcond.1 (by decide))
    have s5 : ∀ acc : Option (List Char) × ℚ × List (List Char),
        detectStep tieText acc sigCerner = acc := fun acc =>
      if_neg (fun hcond => absurd hcond.1 (by decide))
    unfold detect_emr_system
    simp only [EMR_SIGNATURES, List.foldl_cons, List.foldl_nil]
    rw [s1, s2, s3, s4, s5]
    rfl

/-- C8 witness: the fallback clause applied to "zz", where no profile
    qualifies and the text has no CJK ideograph. -/
theorem C8_dialect_detection_w :
    (∀ s ∈ EMR_SIGNATURES, ¬ (s.minMatches ≤ (kwMatches s ("zz".toList)).length)) ∧
    detect_emr_system ("zz".toList) =
      (if hasCJK ("zz".toList)
       then ("generic_cn".toList, 1/2, ["中文字符检测".toList])
       else ("generic_en".toList, 1/2, ["英文字符检测".toList])) :=
  ⟨by decide, C8_dialect_detection.2.1 ("zz".toList) (by decide)⟩

/-! ## HeidiClient authentication fallback (core/heidi_client.py)

    authenticate(): returns the cached token when present and
    unexpired (unless force_refresh); otherwise performs the GET /jwt
    call and, on ANY failure (network error, bad status, or a response
    without a token field), falls back to the demo mode by installing
    the literal token MOCK_TOKEN_FOR_DEMO with a one-hour expiry - it
    never raises.

    _make_api_request(): ensures a token, performs the HTTP call; on a
    401 with retry < 1 it calls authenticate(force_refresh=True) once
    and retries; a second 401 raises HeidiAPIError; network errors are
    retried up to API_RETRY_COUNT with backoff, then raised.

    create_patient(): ensures a token, then - before any HTTP call -
    returns a canned mock result when the token equals
    MOCK_TOKEN_FOR_DEMO, so no real publish request is made in demo
    mode.

    The HTTP boundary is modelled as oracles indexed by call counts;
    the returned attempt counters make "exactly one refresh-and-retry"
    and "no real publish call" provable. -/

def MOCK_TOKEN : List Char := "MOCK_TOKEN_FOR_DEMO".toList

def API_RETRY_COUNT : Nat := 3

structure ClientState where
  jwtToken : Option (List Char)
  tokenExpiry : Option ℚ

/-- A /jwt response: either a token with its expires_in, or any
    failure (exception, bad status, or missing token field). -/
def AuthResp : Type := Except Unit (List Char × ℚ)

/-- HeidiClient.authenticate: returns the new state and the token it
    hands back; total - the auth failure path never raises. -/
def authenticate (st : ClientState) (now : ℚ) (forceRefresh : Bool)
    (resp : AuthResp) : ClientState × List Char :=
  let doAuth : ClientState × List Char :=
    match resp with
    | .ok (tok, expiresIn) =>
      (⟨some tok, some (now + expiresIn - 60)⟩, tok)
    | .error _ => (⟨some MOCK_TOKEN, some (now + 3600)⟩, MOCK_TOKEN)
  match st.jwtToken, forceRefresh with
  | some tk, false =>
    match st.tokenExpiry with
    | some e => if now < e then (st, tk) else doAuth
    | none => doAuth
  | _, _ => doAuth

/-- An HTTP response at the request boundary. -/
inductive HttpResp where
  | ok : Jval → HttpResp
  | httpError : Nat → HttpResp
  | netError : HttpResp

inductive ApiOutcome where
  | success : Jval → ApiOutcome
  | apiError : ApiOutcome

/-- HeidiClient._make_api_request.  authO and reqO are the responses
    of the auth endpoint and of the API endpoint, indexed by how many
    calls have been made to each; the result carries the outcome, the
    total number of HTTP request attempts, the number of auth calls,
    and the final client state. -/
def make_api_request (authO : Nat → AuthResp) (reqO : Nat → HttpResp)
    (now : ℚ) (st : ClientState) (retry attempts authCalls : Nat) :
    ApiOutcome × Nat × Nat × ClientState :=
  let ensure : ClientState × Nat :=
    match st.jwtToken with
    | none => ((authenticate st now false (authO authCalls)).1, authCalls + 1)
    | some _ => (st, authCalls)
  match reqO attempts with
  | .ok v => (.success v, attempts + 1, ensure.2, ensure.1)
  | .httpError code =>
    if h : code = 401 ∧ retry < 1 then
      let st2 := (authenticate ensure.1 now true (authO ensure.2)).1
      make_api_request authO reqO now st2 (retry + 1) (attempts + 1)
        (ensure.2 + 1)
    else (.apiError, attempts + 1, ensure.2, ensure.1)
  | .netError =>
    if h : retry < API_RETRY_COUNT then
      make_api_request authO reqO now ensure.1 (retry + 1) (attempts + 1)
        ensure.2
    else (.apiError, attempts + 1, ensure.2, ensure.1)
termination_by API_RETRY_COUNT + 1 - retry
decreasing_by
  · omega
  · simp only [API_RETRY_COUNT] at h ⊢
    omega

/-- The patient dict handed to create_patient by the demo flow. -/
structure DemoPatient where
  first_name : Option (List Char)
  last_name : Option (List Char)
  birth_date : Option (List Char)
  gender : Option (List Char)
  phone : Option (List Char)

def jOfOpt : Option (List Char) → Jval
  | some s => .jstr s
  | none => .jnull

/-- The payload create_patient builds: dob from birth_date, the
    gender lowercased with "unknown" default, the phone as
    external_id with "demo-id" default. -/
def create_patient_payload (p : DemoPatient) : Jval :=
  .jobj [("first_name".toList, jOfOpt p.first_name),
         ("last_name".toList, jOfOpt p.last_name),
         ("dob".toList, jOfOpt p.birth_date),
         ("gender".toList,
          .jstr ((p.gender.getD ("unknown".toList)).map pyLower)),
         ("external_id".toList,
          .jstr (p.phone.getD ("demo-id".toList)))]

def mockCreateResult : Jval :=
  .jobj [("id".toList, .jstr ("mock_id_123".toList)),
         ("status".toList, .jstr ("success".toList)),
         ("action".toList, .jstr ("mock".toList))]

/-- HeidiClient.create_patient: the Bool records whether a real HTTP
    POST was issued. -/
def create_patient (p : DemoPatient) (authO : AuthResp)
    (postO : Jval → HttpResp) (now : ℚ) (st : ClientState) :
    Option Jval × Bool × ClientState :=
  let st1 : ClientState :=
    match st.jwtToken with
    | none => (authenticate st now false authO).1
    | some _ => st
  if st1.jwtToken = some MOCK_TOKEN then (some mockCreateResult, false, st1)
  else
    match postO (create_patient_payload p) with
    | .ok v => (some v, true, st1)
    | _ => (none, true, st1)

/-- C9: (i) when the auth call fails, authenticate does not raise but
    installs the explicit degraded-mode token MOCK_TOKEN_FOR_DEMO
    (with a one-hour expiry) and returns it; (ii) on persistent 401
    credential failures an API request performs exactly one automatic
    refresh-and-retry - two HTTP attempts and one re-authentication -
    and then surfaces the error to the caller; (iii) while the mock
    token is in effect, create_patient returns the canned mock result
    and makes no real publish API call. -/
theorem C9_auth_fallback :
    (∀ now : ℚ, authenticate ⟨none, none⟩ now false (.error ()) =
      (⟨some MOCK_TOKEN, some (now + 3600)⟩, MOCK_TOKEN)) ∧
    (∀ (authO : Nat → AuthResp) (now : ℚ) (st : ClientState) (tk : List Char),
      st.jwtToken = some tk →
      (make_api_request authO (fun _ => .httpError 401) now st 0 0 0).1 =
          .apiError ∧
        (make_api_request authO (fun _ => .httpError 401) now st 0 0 0).2.1 = 2 ∧
        (make_api_request authO (fun _ => .httpError 401) now st 0 0 0).2.2.1 = 1) ∧
    (∀ (p : DemoPatient) (authO : AuthResp) (postO : Jval → HttpResp)
      (now : ℚ) (st : ClientState), st.jwtToken = some MOCK_TOKEN →
      create_patient p authO postO now st = (some mockCreateResult, false, st)) := by
  refine ⟨fun now => rfl, ?_, ?_⟩
  · intro authO now st tk hst
    obtain ⟨jt, ex⟩ := st
    simp only at hst
    subst hst
    rcases h2 : authO 0 with u | p
    · refine ⟨?_, ?_, ?_⟩ <;> simp [make_api_request, authenticate, h2]
    · obtain ⟨tok, ei⟩ := p
      refine ⟨?_, ?_, ?_⟩ <;> simp [make_api_request, authenticate, h2]
  · intro p authO postO now st hst
    obtain ⟨jt, ex⟩ := st
    simp only at hst
    subst hst
    simp [create_patient]

/-- C9 witness: the 401 retry bound applied with an always-failing
    auth endpoint and a client that already holds a token. -/
theorem C9_auth_fallback_w :
    (ClientState.mk (some ("tok".toList)) none).jwtToken = some ("tok".toList) ∧
    ((make_api_request (fun _ => .error ()) (fun _ => .httpError 401) 0
        (ClientState.mk (some ("tok".toList)) none) 0 0 0).1 = .apiError ∧
      (make_api_request (fun _ => .error ()) (fun _ => .httpError 401) 0
        (ClientState.mk (some ("tok".toList)) none) 0 0 0).2.1 = 2 ∧
      (make_api_request (fun _ => .error ()) (fun _ => .httpError 401) 0
        (ClientState.mk (some ("tok".toList)) none) 0 0 0).2.2.1 = 1) :=
  ⟨rfl, C9_auth_fallback.2.1 (fun _ => .error ()) 0
    (ClientState.mk (some ("tok".toList)) none) ("tok".toList) rfl⟩

end Heidi
